import Mathlib

/-!
Verification of the per-frame scheduling and buffer-lifecycle engine of the
Rockchip ISP1 pipeline handler (src/libcamera/pipeline/rkisp1/rkisp1.cpp).

The development shallowly embeds the scheduler state held by
PipelineHandlerRkISP1 and RkISP1CameraData: the two free queues of internal
buffers, the frame table (RkISP1Frames), the monotonic frame counter, and the
set of pending QueueBuffers timeline actions.  External collaborators (kernel
video devices, the IPA transport, the Request surface) are modelled at their
boundary: buffer-completion callbacks and IPA replies are environment events,
and effects on the collaborators are emitted as an output trace.

Buffer identity: the C++ code distinguishes buffers by pointer; parameter-pool
buffers, statistics-pool buffers and user video buffers are disjoint sets of
objects, which the embedding renders as a role-tagged identity type.
-/

namespace RkISP1Spec

/-- Buffer identity.  The C++ code handles `Buffer *` pointers; the three
roles (internal parameter pool, internal statistics pool, user video buffers
from Requests) are disjoint families of objects, so the identity carries the
role.  The payload is the buffer's pool index (`Buffer::index()`). -/
inductive BufId where
  | param (i : Nat)
  | stat (i : Nat)
  | video (i : Nat)
deriving DecidableEq, Repr

def BufId.index : BufId → Nat
  | .param i => i
  | .stat i => i
  | .video i => i

def BufId.isParam : BufId → Bool
  | .param _ => true
  | _ => false

def BufId.isStat : BufId → Bool
  | .stat _ => true
  | _ => false

def BufId.isVideo : BufId → Bool
  | .video _ => true
  | _ => false

/-- struct RkISP1FrameInfo: the per-frame ledger.  Requests are identified by
a numeric handle (the C++ code uses `Request *`). -/
structure RkISP1FrameInfo where
  frame : Nat
  request : Nat
  paramBuffer : BufId
  statBuffer : BufId
  videoBuffer : BufId
  paramFilled : Bool
  paramDequeued : Bool
  metadataProcessed : Bool
deriving DecidableEq, Repr

/-- RkISP1Frames::find(unsigned int frame): lookup by frame key in the
`std::map frameInfo_` (keys are unique; modelled as an association list). -/
def findFrame (l : List RkISP1FrameInfo) (f : Nat) : Option RkISP1FrameInfo :=
  l.find? (fun i => i.frame == f)

/-- RkISP1Frames::find(Buffer *buffer): linear search matching any of the
three buffer slots of an entry. -/
def findBuffer (l : List RkISP1FrameInfo) (b : BufId) : Option RkISP1FrameInfo :=
  l.find? (fun i => i.paramBuffer == b || i.statBuffer == b || i.videoBuffer == b)

/-- RkISP1Frames::find(Request *request): linear search by serviced request. -/
def findRequest (l : List RkISP1FrameInfo) (r : Nat) : Option RkISP1FrameInfo :=
  l.find? (fun i => i.request == r)

/-- `frameInfo_[frame] = info`: std::map operator[] assignment, which
overwrites an existing entry with the same key and otherwise inserts. -/
def mapInsert (l : List RkISP1FrameInfo) (info : RkISP1FrameInfo) :
    List RkISP1FrameInfo :=
  if l.any (fun i => i.frame == info.frame) then
    l.map (fun i => if i.frame == info.frame then info else i)
  else
    l ++ [info]

/-- The scheduler state.

`paramBuffers`, `statBuffers`, `frameInfo` and `frame` embed the C++ members
`paramBuffers_`, `statBuffers_`, `RkISP1Frames::frameInfo_` and
`RkISP1CameraData::frame_` (queues as lists with the front at the head).

`pendingActions`, `paramQueued` and `statQueued` are environment state, not
C++ members: the frames whose QueueBuffers timeline action has been scheduled
but has not fired yet, and the buffers currently enqueued to (owned by) the
parameter and statistics kernel devices.  They constrain which environment
events can occur: the timeline fires each scheduled action once, and the
kernel only completes buffers it was given. -/
structure SysState where
  paramBuffers : List BufId
  statBuffers : List BufId
  frameInfo : List RkISP1FrameInfo
  frame : Nat
  pendingActions : List Nat
  paramQueued : List BufId
  statQueued : List BufId
deriving DecidableEq, Repr

/-- Effects on external collaborators, in emission order. -/
inductive Output where
  | completeRequest (request : Nat)
  | completeBuffer (request : Nat)
  | ipaQueueRequest (frame : Nat) (id : Nat)
  | ipaSignalStat (frame : Nat) (id : Nat)
  | devQueueParam (b : BufId)
  | devQueueStat (b : BufId)
  | devQueueVideo (b : BufId)
deriving DecidableEq, Repr

/-- RkISP1Frames::create: peek the front of both free queues (failing with a
buffer underrun if either is empty), look up the Request's buffer for the
stream (`request->findBuffer(stream)`, passed in as an optional identity since
the Request is external), and only then pop both queues and emplace a fresh
entry with all flags false.  Failure leaves the state untouched. -/
def framesCreate (s : SysState) (frame : Nat) (request : Nat)
    (videoBuffer : Option BufId) : Option (RkISP1FrameInfo × SysState) :=
  match s.paramBuffers with
  | [] => none
  | paramBuffer :: restParam =>
    match s.statBuffers with
    | [] => none
    | statBuffer :: restStat =>
      match videoBuffer with
      | none => none
      | some vb =>
        let info : RkISP1FrameInfo :=
          { frame := frame, request := request, paramBuffer := paramBuffer,
            statBuffer := statBuffer, videoBuffer := vb,
            paramFilled := false, paramDequeued := false,
            metadataProcessed := false }
        some (info, { s with
          paramBuffers := restParam,
          statBuffers := restStat,
          frameInfo := mapInsert s.frameInfo info })

/-- RkISP1Frames::destroy: if the frame is found, push its parameter and
statistics buffers back onto the free queues, erase the map entry and return
0; otherwise return -ENOENT. -/
def framesDestroy (s : SysState) (frame : Nat) : Int × SysState :=
  match findFrame s.frameInfo frame with
  | none => (-2, s)
  | some info =>
    (0, { s with
      paramBuffers := s.paramBuffers ++ [info.paramBuffer],
      statBuffers := s.statBuffers ++ [info.statBuffer],
      frameInfo := s.frameInfo.filter (fun i => i.frame != frame) })

/-- PipelineHandlerRkISP1::tryCompleteRequest.  `hasPending` is the value of
the external `request->hasPendingBuffers()` at the time of the call.  The
emitted output list records the `completeRequest(activeCamera_, request)`
call; on success the frame table entry is destroyed afterwards. -/
def tryCompleteRequest (s : SysState) (request : Nat) (hasPending : Bool) :
    SysState × List Output :=
  match findRequest s.frameInfo request with
  | none => (s, [])
  | some info =>
    if hasPending then (s, [])
    else if !info.metadataProcessed then (s, [])
    else if !info.paramDequeued then (s, [])
    else ((framesDestroy s info.frame).2, [Output.completeRequest request])

/-- Mutation of the single entry found by a frame lookup (the C++ code writes
through the `RkISP1FrameInfo *`; keys are unique in the map). -/
def updFrame (l : List RkISP1FrameInfo) (f : Nat)
    (u : RkISP1FrameInfo → RkISP1FrameInfo) : List RkISP1FrameInfo :=
  l.map (fun i => if i.frame == f then u i else i)

/-- PipelineHandlerRkISP1::queueRequest, scheduler part: create a FrameInfo
for the current frame counter; on failure return -ENOENT with nothing else
done.  On success emit the IPA `QUEUE_REQUEST` event carrying
`RKISP1_PARAM_BASE | paramBuffer->index()`, schedule the QueueBuffers
timeline action for this frame, and increment the frame counter. -/
def queueRequestF (s : SysState) (request : Nat) (videoBuffer : Option BufId) :
    Int × SysState × List Output :=
  match framesCreate s s.frame request videoBuffer with
  | none => (-2, s, [])
  | some (info, s1) =>
    (0,
     { s1 with
       pendingActions := s1.pendingActions ++ [s.frame],
       frame := s1.frame + 1 },
     [Output.ipaQueueRequest s.frame (0x100 ||| info.paramBuffer.index)])

/-- PipelineHandlerRkISP1::bufferReady (capture device): bump the frame
counter past the kernel sequence number when it is not already ahead, call
the external completeBuffer, then attempt completion.  Both `frame_` and the
kernel sequence are C++ unsigned int (32 bits), so the assignment
`frame_ = buffer->sequence() + 1` is u32 arithmetic: at
sequence = 0xFFFFFFFF it wraps to 0.  (The timeline SOE notification is
external timing and not part of the scheduler state.) -/
def bufferReadyF (s : SysState) (request : Nat) (sequence : Nat)
    (hasPending : Bool) : SysState × List Output :=
  let s1 := if s.frame ≤ sequence then
    { s with frame := (sequence + 1) % 4294967296 } else s
  let r2 := tryCompleteRequest s1 request hasPending
  (r2.1, Output.completeBuffer request :: r2.2)

/-- PipelineHandlerRkISP1::paramReady, continuation after the buffer lookup
has produced `info` (the code then writes `info->paramDequeued = true` and
calls tryCompleteRequest).  The custody update on `paramQueued` is
environment bookkeeping: the kernel has handed the buffer back. -/
def paramReadyGo (s : SysState) (b : BufId) (info : RkISP1FrameInfo)
    (hasPending : Bool) : SysState × List Output :=
  let l1 := updFrame s.frameInfo info.frame (fun i => { i with paramDequeued := true })
  let s1 := { s with frameInfo := l1, paramQueued := s.paramQueued.erase b }
  tryCompleteRequest s1 info.request hasPending

/-- PipelineHandlerRkISP1::paramReady as written: the buffer lookup's result
is dereferenced without a null check, so a lookup miss is a null-pointer
dereference, modelled as `none`. -/
def paramReadyF (s : SysState) (b : BufId) (hasPending : Bool) :
    Option (SysState × List Output) :=
  match findBuffer s.frameInfo b with
  | none => none
  | some info => some (paramReadyGo s b info hasPending)

/-- PipelineHandlerRkISP1::statReady: a lookup miss drops the event;
otherwise emit the IPA `SIGNAL_STAT_BUFFER` event carrying
`RKISP1_STAT_BASE | statBuffer->index()`.  Nothing is marked complete. -/
def statReadyF (s : SysState) (b : BufId) : SysState × List Output :=
  let s1 := { s with statQueued := s.statQueued.erase b }
  match findBuffer s.frameInfo b with
  | none => (s1, [])
  | some info =>
    (s1, [Output.ipaSignalStat info.frame (0x200 ||| info.statBuffer.index)])

/-- RkISP1CameraData::queueFrameAction, RKISP1_IPA_ACTION_PARAM_FILLED case:
set `paramFilled` on the referenced frame if it is still present. -/
def onParamFilled (s : SysState) (f : Nat) : SysState :=
  match findFrame s.frameInfo f with
  | none => s
  | some _ =>
    { s with frameInfo :=
        updFrame s.frameInfo f (fun i => { i with paramFilled := true }) }

/-- RkISP1CameraData::metadataReady (RKISP1_IPA_ACTION_METADATA): if the
frame is still present, store the metadata on the Request (external), set
`metadataProcessed`, and attempt completion. -/
def onMetadata (s : SysState) (f : Nat) (hasPending : Bool) :
    SysState × List Output :=
  match findFrame s.frameInfo f with
  | none => (s, [])
  | some info =>
    let l1 := updFrame s.frameInfo f (fun i => { i with metadataProcessed := true })
    tryCompleteRequest { s with frameInfo := l1 } info.request hasPending

/-- RkISP1ActionQueueBuffers::run for a frame whose FrameInfo was found:
enqueue the parameter buffer only when `paramFilled` (otherwise log and skip
it), then the statistics buffer, then the user video buffer, in that order.
Removing the frame from `pendingActions` and the custody additions are
environment bookkeeping (the timeline retires a fired action; the kernel now
owns the enqueued buffers). -/
def runQueueBuffers (s : SysState) (f : Nat) (info : RkISP1FrameInfo) :
    SysState × List Output :=
  let paramPart : List BufId × List Output :=
    if info.paramFilled then ([info.paramBuffer], [Output.devQueueParam info.paramBuffer])
    else ([], [])
  ({ s with
     pendingActions := s.pendingActions.erase f,
     paramQueued := s.paramQueued ++ paramPart.1,
     statQueued := s.statQueued ++ [info.statBuffer] },
   paramPart.2 ++ [Output.devQueueStat info.statBuffer,
                   Output.devQueueVideo info.videoBuffer])

/-- Environment events driving the scheduler. -/
inductive Event where
  | queueRequest (request : Nat) (videoBuffer : Option BufId)
  | bufferReady (request : Nat) (sequence : Nat) (hasPending : Bool)
  | paramReady (b : BufId) (hasPending : Bool)
  | statReady (b : BufId)
  | paramFilled (frame : Nat)
  | metadata (frame : Nat) (hasPending : Bool)
  | queueBuffers (frame : Nat)
deriving DecidableEq, Repr

/-- One serialized dispatch of a scheduler entry point.  The side conditions
are environment facts: a Request's video buffer is a video-role object, the
kernel completes only buffers in its custody, and the timeline fires each
scheduled QueueBuffers action exactly once (the lookup hypotheses on the
paramReady and queueBuffers cases restrict attention to dispatches that do
not abort the process, per the Fatal log / missing null check in the code).
The bufferReady case additionally assumes the dispatch does not wrap the
32-bit frame counter (`sequence + 1` below 2^32): a wrap re-issues frame
keys already present in the table and defeats the key-freshness the rest of
the per-frame bookkeeping relies on; the wrap itself is characterized by
the dedicated frame-counter theorems. -/
inductive Step : SysState → Event → List Output → SysState → Prop where
  | queueRequest (s : SysState) (r : Nat) (vb : Option BufId)
      (hvb : ∀ b, vb = some b → b.isVideo = true) :
      Step s (.queueRequest r vb) (queueRequestF s r vb).2.2 (queueRequestF s r vb).2.1
  | bufferReady (s : SysState) (r seq : Nat) (p : Bool)
      (hseq : seq + 1 < 4294967296) :
      Step s (.bufferReady r seq p) (bufferReadyF s r seq p).2 (bufferReadyF s r seq p).1
  | paramReady (s : SysState) (b : BufId) (p : Bool) (info : RkISP1FrameInfo)
      (hq : b ∈ s.paramQueued)
      (hfind : findBuffer s.frameInfo b = some info) :
      Step s (.paramReady b p) (paramReadyGo s b info p).2 (paramReadyGo s b info p).1
  | statReady (s : SysState) (b : BufId)
      (hq : b ∈ s.statQueued) :
      Step s (.statReady b) (statReadyF s b).2 (statReadyF s b).1
  | paramFilled (s : SysState) (f : Nat) :
      Step s (.paramFilled f) [] (onParamFilled s f)
  | metadata (s : SysState) (f : Nat) (p : Bool) :
      Step s (.metadata f p) (onMetadata s f p).2 (onMetadata s f p).1
  | queueBuffers (s : SysState) (f : Nat) (info : RkISP1FrameInfo)
      (hp : f ∈ s.pendingActions)
      (hfind : findFrame s.frameInfo f = some info) :
      Step s (.queueBuffers f) (runQueueBuffers s f info).2 (runQueueBuffers s f info).1

/-- The state right after start: the free queues hold the two allocated pools
(allocateBuffers pushes `new Buffer(i)` for each slot), the frame table is
empty, and the frame counter was reset to 0. -/
def initState (nParam nStat : Nat) : SysState :=
  { paramBuffers := (List.range nParam).map BufId.param,
    statBuffers := (List.range nStat).map BufId.stat,
    frameInfo := [], frame := 0,
    pendingActions := [], paramQueued := [], statQueued := [] }

/-- States reachable by serialized dispatches from a fresh start. -/
inductive Reach : SysState → Prop where
  | init (nParam nStat : Nat) : Reach (initState nParam nStat)
  | step {s : SysState} {e : Event} {out : List Output} {s' : SysState} :
      Reach s → Step s e out s' → Reach s'

/-- A finite run: the event list consumed and the concatenated output trace. -/
inductive Trace : SysState → List Event → List Output → SysState → Prop where
  | nil (s : SysState) : Trace s [] [] s
  | cons {s s1 s2 : SysState} {e : Event} {evs : List Event}
      {out outs : List Output} :
      Step s e out s1 → Trace s1 evs outs s2 → Trace s (e :: evs) (out ++ outs) s2

/-! ## Lifecycle: start -/

/-- External calls issued by PipelineHandlerRkISP1::start, in program order. -/
inductive StartAct where
  | streamOnParam
  | streamOnStat
  | streamOnVideo
  | streamOffParam
  | streamOffStat
  | setActiveCamera
  | ipaConfigure
deriving DecidableEq, Repr

/-- PipelineHandlerRkISP1::start, parametrized by the return codes of the
three streamOn calls (0 is success).  The result is the function's return
value together with the ordered list of external calls it performed.  The
frame counter reset (`data->frame_ = 0`) and the construction of the IPA
configure payload are elided; `ipaConfigure` marks the
`data->ipa_->configure(...)` call, whose outcome the code does not inspect. -/
def startF (rParam rStat rVideo : Int) : Int × List StartAct :=
  if rParam ≠ 0 then
    (rParam, [StartAct.streamOnParam])
  else if rStat ≠ 0 then
    (rStat, [StartAct.streamOnParam, StartAct.streamOnStat, StartAct.streamOffParam])
  else
    let unwind : List StartAct :=
      if rVideo ≠ 0 then [StartAct.streamOffParam, StartAct.streamOffStat] else []
    (rVideo,
     [StartAct.streamOnParam, StartAct.streamOnStat, StartAct.streamOnVideo]
       ++ unwind ++ [StartAct.setActiveCamera, StartAct.ipaConfigure])

/-! ## Buffer allocation and release -/

/-- The buffer bookkeeping touched by allocateBuffers and freeBuffers: the
two free queues, the accumulated IPA registration list `ipaBuffers_` (buffer
ids in registration order), the ids currently mapped inside the IPA, and
whether each device currently holds exported or imported buffers. -/
structure BufAllocState where
  paramBuffers : List BufId
  statBuffers : List BufId
  ipaBuffers : List Nat
  ipaMapped : List Nat
  videoExported : Bool
  paramExported : Bool
  statExported : Bool
deriving DecidableEq, Repr

/-- The pre-allocation state: nothing allocated, nothing registered. -/
def initBufState : BufAllocState :=
  { paramBuffers := [], statBuffers := [], ipaBuffers := [], ipaMapped := [],
    videoExported := false, paramExported := false, statExported := false }

/-- PipelineHandlerRkISP1::allocateBuffers, parametrized by the success of
the three external export/import calls.  On success it exports
`bufferCount + 1` parameter and statistics buffers, registers each with the
IPA under `RKISP1_PARAM_BASE | i` and `RKISP1_STAT_BASE | i`, pushes a fresh
Buffer per slot onto each free queue, and maps the whole registration list
into the IPA.  Each failure releases exactly the devices already populated
and returns the error. -/
def allocateBuffersF (s : BufAllocState) (bufferCount : Nat)
    (videoOk paramOk statOk : Bool) : Int × BufAllocState :=
  if !videoOk then (-1, s)
  else
    let s1 := { s with videoExported := true }
    if !paramOk then (-1, { s1 with videoExported := false })
    else
      let s2 := { s1 with paramExported := true }
      if !statOk then (-1, { s2 with paramExported := false, videoExported := false })
      else
        let n := bufferCount + 1
        let paramIds := (List.range n).map (fun i => 0x100 ||| i)
        let statIds := (List.range n).map (fun i => 0x200 ||| i)
        let ipaBufs := s2.ipaBuffers ++ paramIds ++ statIds
        (0, { s2 with
          statExported := true,
          ipaBuffers := ipaBufs,
          paramBuffers := s2.paramBuffers ++ (List.range n).map BufId.param,
          statBuffers := s2.statBuffers ++ (List.range n).map BufId.stat,
          ipaMapped := s2.ipaMapped ++ ipaBufs })

/-- PipelineHandlerRkISP1::freeBuffers: drain the statistics free queue, then
the parameter free queue, unmap from the IPA every id in the registration
list and clear the list, then release the parameter, statistics and video
device buffers (logging but ignoring failures).  Always returns 0. -/
def freeBuffersF (s : BufAllocState) : Int × BufAllocState :=
  let ids := s.ipaBuffers
  (0, { s with
    statBuffers := [],
    paramBuffers := [],
    ipaMapped := s.ipaMapped.filter (fun i => !(ids.contains i)),
    ipaBuffers := [],
    paramExported := false,
    statExported := false,
    videoExported := false })

/-! ## Basic lemmas -/

theorem findFrame_filter_self (l : List RkISP1FrameInfo) (f : Nat) :
    findFrame (l.filter (fun i => i.frame != f)) f = none := by
  rw [findFrame, List.find?_eq_none]
  intro i hi
  have h2 := (List.mem_filter.mp hi).2
  simpa using h2

theorem findRequest_mem {l : List RkISP1FrameInfo} {r : Nat}
    {info : RkISP1FrameInfo} (h : findRequest l r = some info) :
    info ∈ l ∧ info.request = r := by
  refine ⟨List.mem_of_find?_eq_some h, ?_⟩
  have := List.find?_some h
  simpa using this

theorem findFrame_mem {l : List RkISP1FrameInfo} {f : Nat}
    {info : RkISP1FrameInfo} (h : findFrame l f = some info) :
    info ∈ l ∧ info.frame = f := by
  refine ⟨List.mem_of_find?_eq_some h, ?_⟩
  have := List.find?_some h
  simpa using this

theorem findFrame_isSome_of_mem {l : List RkISP1FrameInfo}
    {info : RkISP1FrameInfo} (h : info ∈ l) :
    (findFrame l info.frame).isSome := by
  rw [findFrame, List.find?_isSome]
  exact ⟨info, h, by simp⟩

theorem framesDestroy_frame (s : SysState) (f : Nat) :
    (framesDestroy s f).2.frame = s.frame := by
  unfold framesDestroy
  cases findFrame s.frameInfo f <;> rfl

theorem tryCompleteRequest_frame (s : SysState) (r : Nat) (p : Bool) :
    (tryCompleteRequest s r p).1.frame = s.frame := by
  unfold tryCompleteRequest
  cases h : findRequest s.frameInfo r with
  | none => rfl
  | some info =>
    cases p <;> cases hmd : info.metadataProcessed <;>
      cases hpd : info.paramDequeued <;>
      simp [hmd, hpd, framesDestroy_frame]

/-! ## C1 -/

/-- C1: for a Request with a live FrameInfo, tryCompleteRequest completes the
Request iff the Request reports no pending output buffers, metadataProcessed
holds and paramDequeued holds; on success it invokes the external
completeRequest and then destroys the frame table entry for the frame; in
every other state it leaves the state unchanged and completes nothing. -/
theorem tryCompleteRequest_gate (s : SysState) (r : Nat) (p : Bool)
    (info : RkISP1FrameInfo) (hfind : findRequest s.frameInfo r = some info) :
    ((tryCompleteRequest s r p).2 ≠ [] ↔
      p = false ∧ info.metadataProcessed = true ∧ info.paramDequeued = true) ∧
    (p = false → info.metadataProcessed = true → info.paramDequeued = true →
      (tryCompleteRequest s r p).2 = [Output.completeRequest r] ∧
      (tryCompleteRequest s r p).1 = (framesDestroy s info.frame).2 ∧
      findFrame (tryCompleteRequest s r p).1.frameInfo info.frame = none) ∧
    ((p = true ∨ info.metadataProcessed = false ∨ info.paramDequeued = false) →
      tryCompleteRequest s r p = (s, [])) := by
  have hmem := findRequest_mem hfind
  have hsome : (findFrame s.frameInfo info.frame).isSome :=
    findFrame_isSome_of_mem hmem.1
  refine ⟨?_, ?_, ?_⟩
  · unfold tryCompleteRequest
    rw [hfind]
    cases p <;> cases hmd : info.metadataProcessed <;>
      cases hpd : info.paramDequeued <;> simp [hmd, hpd]
  · intro hp hmd hpd
    have h1 : tryCompleteRequest s r p =
        ((framesDestroy s info.frame).2, [Output.completeRequest r]) := by
      unfold tryCompleteRequest
      rw [hfind]
      simp [hp, hmd, hpd]
    refine ⟨by rw [h1], by rw [h1], ?_⟩
    rw [h1]
    unfold framesDestroy
    cases h : findFrame s.frameInfo info.frame with
    | none => rw [h] at hsome; simp at hsome
    | some info2 => exact findFrame_filter_self _ _
  · intro hcase
    unfold tryCompleteRequest
    rw [hfind]
    rcases hcase with h | h | h <;> simp [h]

/-- C1 witness: a concrete state with a live FrameInfo whose flags are set,
where the gate fires. -/
def c1State : SysState :=
  { paramBuffers := [], statBuffers := [],
    frameInfo := [{ frame := 0, request := 3, paramBuffer := BufId.param 0,
                    statBuffer := BufId.stat 0, videoBuffer := BufId.video 0,
                    paramFilled := true, paramDequeued := true,
                    metadataProcessed := true }],
    frame := 1, pendingActions := [], paramQueued := [], statQueued := [] }

def c1Info : RkISP1FrameInfo :=
  { frame := 0, request := 3, paramBuffer := BufId.param 0,
    statBuffer := BufId.stat 0, videoBuffer := BufId.video 0,
    paramFilled := true, paramDequeued := true, metadataProcessed := true }

theorem tryCompleteRequest_gate_witness :
    (tryCompleteRequest c1State 3 false).2 ≠ [] ↔
      false = false ∧ c1Info.metadataProcessed = true ∧ c1Info.paramDequeued = true :=
  (tryCompleteRequest_gate c1State 3 false c1Info (by decide)).1

/-! ## C5 -/

/-- C5: the statReady callback drops a completion whose buffer is not in the
frame table, but paramReady as written dereferences the null lookup result
(modelled by `paramReadyF` returning none): the event is not dropped and the
behavior is a null-pointer dereference.  Evaluated at a concrete input with
an empty frame table. -/
theorem paramReady_missing_buffer_dereferences :
    findBuffer (initState 5 5).frameInfo (BufId.param 0) = none ∧
    paramReadyF (initState 5 5) (BufId.param 0) false = none ∧
    statReadyF (initState 5 5) (BufId.stat 0) = (initState 5 5, []) ∧
    tryCompleteRequest (initState 5 5) 0 false = (initState 5 5, []) := by
  decide

/-! ## C6 -/

/-- C6 counterexample: when the capture (image) device fails to stream on,
start streams off the parameter and statistics devices and returns the
error, but it still records the active camera and still calls the IPA
configure step, contrary to the claim. -/
theorem start_video_failure_counterexample :
    (startF 0 0 (-1)).1 ≠ 0 ∧
    StartAct.setActiveCamera ∈ (startF 0 0 (-1)).2 ∧
    StartAct.ipaConfigure ∈ (startF 0 0 (-1)).2 := by
  decide

/-- C6 amended: start streams on the devices in the order params, stats,
image.  A parameter-device failure returns the error with nothing else done;
a statistics-device failure streams off the parameter device and returns the
error; an image-device failure streams off the parameter and statistics
devices but still records the active camera and still calls the IPA
configure step before returning the error; on success all three stream on,
the active camera is recorded and the IPA is configured.  The outcome of the
IPA configure call is never inspected, so no stream-off path exists for it. -/
theorem start_characterization (rp rs rv : Int) :
    (rp ≠ 0 → startF rp rs rv = (rp, [StartAct.streamOnParam])) ∧
    (rp = 0 → rs ≠ 0 → startF rp rs rv =
      (rs, [StartAct.streamOnParam, StartAct.streamOnStat,
            StartAct.streamOffParam])) ∧
    (rp = 0 → rs = 0 → rv ≠ 0 → startF rp rs rv =
      (rv, [StartAct.streamOnParam, StartAct.streamOnStat,
            StartAct.streamOnVideo, StartAct.streamOffParam,
            StartAct.streamOffStat, StartAct.setActiveCamera,
            StartAct.ipaConfigure])) ∧
    (rp = 0 → rs = 0 → rv = 0 → startF rp rs rv =
      (0, [StartAct.streamOnParam, StartAct.streamOnStat,
           StartAct.streamOnVideo, StartAct.setActiveCamera,
           StartAct.ipaConfigure])) := by
  refine ⟨?_, ?_, ?_, ?_⟩ <;> intros <;> simp_all [startF]

theorem start_characterization_witness :
    startF 0 0 (-1) =
      (-1, [StartAct.streamOnParam, StartAct.streamOnStat,
            StartAct.streamOnVideo, StartAct.streamOffParam,
            StartAct.streamOffStat, StartAct.setActiveCamera,
            StartAct.ipaConfigure]) :=
  (start_characterization 0 0 (-1)).2.2.1 rfl rfl (by decide)

/-! ## C7 -/

/-- C7: when FrameInfo creation fails (either free queue empty, or the
Request lacks a buffer for the stream), queueRequest returns -ENOENT and has
no side effects: the state (frame counter, free queues, frame table,
pending timeline actions) is unchanged and no IPA event is emitted. -/
theorem queueRequest_failure_no_side_effects (s : SysState) (r : Nat)
    (vb : Option BufId)
    (hfail : s.paramBuffers = [] ∨ s.statBuffers = [] ∨ vb = none) :
    (queueRequestF s r vb).1 = -2 ∧
    (queueRequestF s r vb).2.1 = s ∧
    (queueRequestF s r vb).2.2 = [] := by
  have hcreate : framesCreate s s.frame r vb = none := by
    rcases hfail with h | h | h
    · simp [framesCreate, h]
    · unfold framesCreate
      cases s.paramBuffers <;> simp [h]
    · unfold framesCreate
      cases s.paramBuffers <;> cases s.statBuffers <;> simp [h]
  simp [queueRequestF, hcreate]

theorem queueRequest_failure_witness :
    (queueRequestF (initState 0 0) 7 (some (BufId.video 0))).1 = -2 ∧
    (queueRequestF (initState 0 0) 7 (some (BufId.video 0))).2.1 = initState 0 0 ∧
    (queueRequestF (initState 0 0) 7 (some (BufId.video 0))).2.2 = [] :=
  queueRequest_failure_no_side_effects (initState 0 0) 7 (some (BufId.video 0))
    (Or.inl rfl)

/-! ## C8 -/

/-- C8: when the QueueBuffers action fires for a frame whose FrameInfo is
present, the device enqueues are: the parameter buffer only if paramFilled
(otherwise it is skipped and the action proceeds), then the statistics
buffer, then the user image buffer, in exactly the order
params, stats, image. -/
theorem queueBuffers_enqueue_order (s : SysState) (f : Nat)
    (info : RkISP1FrameInfo) (_hfind : findFrame s.frameInfo f = some info) :
    (info.paramFilled = true →
      (runQueueBuffers s f info).2 =
        [Output.devQueueParam info.paramBuffer,
         Output.devQueueStat info.statBuffer,
         Output.devQueueVideo info.videoBuffer]) ∧
    (info.paramFilled = false →
      (runQueueBuffers s f info).2 =
        [Output.devQueueStat info.statBuffer,
         Output.devQueueVideo info.videoBuffer]) := by
  constructor <;> intro h <;> simp [runQueueBuffers, h]

theorem queueBuffers_enqueue_order_witness :
    (runQueueBuffers c1State 0 c1Info).2 =
      [Output.devQueueParam c1Info.paramBuffer,
       Output.devQueueStat c1Info.statBuffer,
       Output.devQueueVideo c1Info.videoBuffer] :=
  (queueBuffers_enqueue_order c1State 0 c1Info (by decide)).1 rfl

/-! ## C9 -/

/-- A state whose frame counter has already advanced to 5, with an empty
frame table. -/
def c9State : SysState := { initState 1 1 with frame := 5 }

/-- C9 counterexample: `frame_` and the kernel sequence are 32-bit unsigned
integers, so at sequence = 0xFFFFFFFF the assignment
`frame_ = buffer->sequence() + 1` wraps to 0: the counter does not become
max(frame, sequence + 1) and it decreases. -/
theorem bufferReady_wrap_counterexample :
    (bufferReadyF c9State 0 4294967295 true).1.frame = 0 ∧
    (bufferReadyF c9State 0 4294967295 true).1.frame ≠
      max c9State.frame (4294967295 + 1) ∧
    (bufferReadyF c9State 0 4294967295 true).1.frame < c9State.frame := by
  refine ⟨rfl, by decide, by decide⟩

/-- C9 amended: an image-buffer completion advances the u32 frame counter to
max(frame, sequence + 1) whenever sequence + 1 stays below 2^32 (unchanged
when the kernel sequence is below the counter, jumping past any sequence
that reaches it, and not decreasing); at sequence = 2^32 - 1 the assignment
wraps the counter to 0, which can decrease it. -/
theorem bufferReady_frame_counter_wrap (s : SysState) (r seq : Nat) (p : Bool) :
    (seq + 1 < 4294967296 →
      (bufferReadyF s r seq p).1.frame = max s.frame (seq + 1) ∧
      s.frame ≤ (bufferReadyF s r seq p).1.frame) ∧
    (seq + 1 = 4294967296 → s.frame ≤ seq →
      (bufferReadyF s r seq p).1.frame = 0) := by
  constructor
  · intro hseq
    unfold bufferReadyF
    by_cases h : s.frame ≤ seq
    · rw [if_pos h]
      simp only [tryCompleteRequest_frame]
      rw [Nat.mod_eq_of_lt hseq]
      omega
    · rw [if_neg h]
      simp only [tryCompleteRequest_frame]
      omega
  · intro hseq h
    unfold bufferReadyF
    rw [if_pos h]
    simp only [tryCompleteRequest_frame]
    rw [hseq]

theorem bufferReady_frame_counter_wrap_witness :
    (bufferReadyF (initState 1 1) 0 3 false).1.frame =
      max (initState 1 1).frame 4 ∧
    (initState 1 1).frame ≤ (bufferReadyF (initState 1 1) 0 3 false).1.frame :=
  (bufferReady_frame_counter_wrap (initState 1 1) 0 3 false).1 (by decide)

/-! ## C10 -/

theorem filter_not_contains_self (l : List Nat) :
    l.filter (fun i => !(l.contains i)) = [] := by
  rw [List.filter_eq_nil_iff]
  intro a ha
  simp [ha]

theorem freeBuffersF_eq (s : BufAllocState)
    (h : s.ipaMapped.filter (fun i => !(s.ipaBuffers.contains i)) = []) :
    freeBuffersF s = (0, initBufState) := by
  have h2 : ∀ a ∈ s.ipaMapped, a ∈ s.ipaBuffers := by
    intro a ha
    by_contra hc
    have hmem : a ∈ s.ipaMapped.filter (fun i => !(s.ipaBuffers.contains i)) := by
      rw [List.mem_filter]
      exact ⟨ha, by simp [hc]⟩
    rw [h] at hmem
    simp at hmem
  unfold freeBuffersF initBufState
  simpa using h2

/-- C10: allocateBuffers followed by freeBuffers is a round trip to the
pre-allocation state: the allocation succeeds, every id registered with the
IPA is mapped, and freeBuffers empties both free queues, unmaps every
registered id, clears the registration list and releases the parameter,
statistics and video device buffers, restoring the empty initial state. -/
theorem allocate_free_roundtrip (count : Nat) :
    (allocateBuffersF initBufState count true true true).1 = 0 ∧
    (allocateBuffersF initBufState count true true true).2.ipaMapped =
      (allocateBuffersF initBufState count true true true).2.ipaBuffers ∧
    freeBuffersF (allocateBuffersF initBufState count true true true).2 =
      (0, initBufState) := by
  exact ⟨rfl, rfl, freeBuffersF_eq _ (filter_not_contains_self _)⟩

/-! ## Decomposition lemmas for the frame table

All table mutations act on the single entry selected by a key lookup; the
lemmas below decompose a table with unique frame keys around that entry. -/

theorem nodup_frame_decomp {l : List RkISP1FrameInfo} {info : RkISP1FrameInfo}
    (hnd : (l.map (fun i => i.frame)).Nodup) (hmem : info ∈ l) :
    ∃ l1 l2, l = l1 ++ info :: l2 ∧
      (∀ i ∈ l1, i.frame ≠ info.frame) ∧ (∀ i ∈ l2, i.frame ≠ info.frame) := by
  obtain ⟨l1, l2, rfl⟩ := List.append_of_mem hmem
  rw [List.map_append, List.map_cons] at hnd
  rw [List.nodup_append] at hnd
  obtain ⟨-, hnd2, hdisj⟩ := hnd
  refine ⟨l1, l2, rfl, ?_, ?_⟩
  · intro i hi heq
    exact hdisj (List.mem_map_of_mem _ hi) (by simp [heq])
  · intro i hi heq
    rw [List.nodup_cons] at hnd2
    exact hnd2.1 (heq ▸ List.mem_map_of_mem _ hi)

theorem updFrame_decomp {l1 l2 : List RkISP1FrameInfo} {info : RkISP1FrameInfo}
    (h1 : ∀ i ∈ l1, i.frame ≠ info.frame) (h2 : ∀ i ∈ l2, i.frame ≠ info.frame)
    (u : RkISP1FrameInfo → RkISP1FrameInfo) :
    updFrame (l1 ++ info :: l2) info.frame u = l1 ++ u info :: l2 := by
  unfold updFrame
  rw [List.map_append, List.map_cons]
  congr 1
  · conv_rhs => rw [← List.map_id l1]
    apply List.map_congr_left
    intro i hi
    simp [h1 i hi]
  · congr 1
    · simp
    · conv_rhs => rw [← List.map_id l2]
      apply List.map_congr_left
      intro i hi
      simp [h2 i hi]

theorem filter_frame_decomp {l1 l2 : List RkISP1FrameInfo} {info : RkISP1FrameInfo}
    (h1 : ∀ i ∈ l1, i.frame ≠ info.frame) (h2 : ∀ i ∈ l2, i.frame ≠ info.frame) :
    (l1 ++ info :: l2).filter (fun i => i.frame != info.frame) = l1 ++ l2 := by
  rw [List.filter_append, List.filter_cons]
  have hc : (info.frame != info.frame) = false := by simp
  rw [hc]
  simp only [Bool.false_eq_true, if_false]
  congr 1
  · apply List.filter_eq_self.mpr
    intro i hi
    simp [h1 i hi]
  · apply List.filter_eq_self.mpr
    intro i hi
    simp [h2 i hi]

theorem mapInsert_fresh {l : List RkISP1FrameInfo} {info : RkISP1FrameInfo}
    (h : ∀ i ∈ l, i.frame ≠ info.frame) :
    mapInsert l info = l ++ [info] := by
  unfold mapInsert
  have hany : l.any (fun i => i.frame == info.frame) = false := by
    rw [List.any_eq_false]
    intro i hi
    simpa using h i hi
  rw [hany]
  simp

theorem frame_inj {l : List RkISP1FrameInfo}
    (hnd : (l.map (fun i => i.frame)).Nodup) {i j : RkISP1FrameInfo}
    (hi : i ∈ l) (hj : j ∈ l) (hij : i.frame = j.frame) : i = j :=
  List.inj_on_of_nodup_map hnd hi hj hij

theorem updFrame_map_field {α : Type} (l : List RkISP1FrameInfo) (f : Nat)
    (u : RkISP1FrameInfo → RkISP1FrameInfo) (g : RkISP1FrameInfo → α)
    (hu : ∀ i, g (u i) = g i) :
    (updFrame l f u).map g = l.map g := by
  unfold updFrame
  rw [List.map_map]
  apply List.map_congr_left
  intro i _
  by_cases h : i.frame = f <;> simp [h, hu]

theorem updFrame_countP (l : List RkISP1FrameInfo) (f : Nat)
    (u : RkISP1FrameInfo → RkISP1FrameInfo) (q : RkISP1FrameInfo → Bool)
    (hu : ∀ i, q (u i) = q i) :
    (updFrame l f u).countP q = l.countP q := by
  unfold updFrame
  induction l with
  | nil => rfl
  | cons x xs ih =>
    rw [List.map_cons, List.countP_cons, List.countP_cons, ih]
    by_cases h : (x.frame == f) = true <;> simp [h, hu]

theorem mem_updFrame {l : List RkISP1FrameInfo} {f : Nat}
    {u : RkISP1FrameInfo → RkISP1FrameInfo} {j : RkISP1FrameInfo}
    (h : j ∈ updFrame l f u) :
    ∃ i ∈ l, j = if (i.frame == f) = true then u i else i := by
  obtain ⟨i, hi, hj⟩ := List.mem_map.mp h
  exact ⟨i, hi, hj.symm⟩

/-! ## The reachable-state invariant

The conjunction of facts maintained by every serialized dispatch.  The
central clause for the completion gate is `dequeuedFilled`: a frame's
parameter buffer can only come back from the kernel if it was enqueued,
which the QueueBuffers action does only when `paramFilled` was already
set. -/

structure Inv (s : SysState) : Prop where
  dequeuedFilled : ∀ i ∈ s.frameInfo, i.paramDequeued = true → i.paramFilled = true
  queuedFilled : ∀ b ∈ s.paramQueued, ∀ i ∈ s.frameInfo,
      i.paramBuffer = b → i.paramFilled = true
  queuedHeld : ∀ b ∈ s.paramQueued, ∃ i ∈ s.frameInfo,
      i.paramBuffer = b ∧ i.paramDequeued = false
  paramNodup : (s.paramBuffers ++ s.frameInfo.map (fun i => i.paramBuffer)).Nodup
  framesNodup : (s.frameInfo.map (fun i => i.frame)).Nodup
  queuedNodup : s.paramQueued.Nodup
  pendingFresh : ∀ f ∈ s.pendingActions, ∀ i ∈ s.frameInfo, i.frame = f →
      i.paramBuffer ∉ s.paramQueued ∧ i.paramDequeued = false
  framesLt : ∀ i ∈ s.frameInfo, i.frame < s.frame
  pendingLt : ∀ f ∈ s.pendingActions, f < s.frame
  pendingNodup : s.pendingActions.Nodup
  freeParamShape : ∀ b ∈ s.paramBuffers, b.isParam = true
  heldParamShape : ∀ i ∈ s.frameInfo, i.paramBuffer.isParam = true
  freeStatShape : ∀ b ∈ s.statBuffers, b.isStat = true
  heldStatShape : ∀ i ∈ s.frameInfo, i.statBuffer.isStat = true
  heldVideoShape : ∀ i ∈ s.frameInfo, i.videoBuffer.isVideo = true
  queuedShape : ∀ b ∈ s.paramQueued, b.isParam = true

theorem inv_init (nParam nStat : Nat) : Inv (initState nParam nStat) := by
  refine ⟨?_, ?_, ?_, ?_, ?_, ?_, ?_, ?_, ?_, ?_, ?_, ?_, ?_, ?_, ?_, ?_⟩ <;>
    simp [initState, BufId.isParam, BufId.isStat]
  exact List.Nodup.map (fun a b h => by simpa using h) (List.nodup_range nParam)

theorem held_nodup {s : SysState} (inv : Inv s) :
    (s.frameInfo.map (fun i => i.paramBuffer)).Nodup :=
  ((List.nodup_append.mp inv.paramNodup).2).1

theorem held_free_disjoint {s : SysState} (inv : Inv s) :
    ∀ b ∈ s.paramBuffers, ∀ i ∈ s.frameInfo, i.paramBuffer ≠ b := by
  intro b hb i hi heq
  exact (List.nodup_append.mp inv.paramNodup).2.2 hb (heq ▸ List.mem_map_of_mem _ hi)

theorem paramBuffer_inj {s : SysState} (inv : Inv s) {i j : RkISP1FrameInfo}
    (hi : i ∈ s.frameInfo) (hj : j ∈ s.frameInfo)
    (hij : i.paramBuffer = j.paramBuffer) : i = j :=
  List.inj_on_of_nodup_map (held_nodup inv) hi hj hij

theorem queued_not_free {s : SysState} (inv : Inv s) :
    ∀ b ∈ s.paramQueued, b ∉ s.paramBuffers := by
  intro b hb hbf
  obtain ⟨i, hi, hpb, -⟩ := inv.queuedHeld b hb
  exact held_free_disjoint inv b hbf i hi hpb

theorem framesDestroy_inv {s : SysState} (inv : Inv s) {f : Nat}
    {info : RkISP1FrameInfo} (hfind : findFrame s.frameInfo f = some info)
    (hdq : info.paramDequeued = true) :
    Inv (framesDestroy s f).2 := by
  obtain ⟨hmem, hfr⟩ := findFrame_mem hfind
  subst hfr
  obtain ⟨l1, l2, hl, h1, h2⟩ := nodup_frame_decomp inv.framesNodup hmem
  have hres : (framesDestroy s info.frame).2 = { s with
      paramBuffers := s.paramBuffers ++ [info.paramBuffer],
      statBuffers := s.statBuffers ++ [info.statBuffer],
      frameInfo := l1 ++ l2 } := by
    unfold framesDestroy
    rw [hfind]
    have hfilter : s.frameInfo.filter (fun i => i.frame != info.frame) = l1 ++ l2 := by
      rw [hl]
      exact filter_frame_decomp h1 h2
    rw [hfilter]
  have hsub : ∀ i ∈ l1 ++ l2, i ∈ s.frameInfo := by
    intro i hi
    rw [hl]
    rcases List.mem_append.mp hi with h | h
    · exact List.mem_append.mpr (Or.inl h)
    · exact List.mem_append.mpr (Or.inr (List.mem_cons_of_mem _ h))
  have hnotq : info.paramBuffer ∉ s.paramQueued := by
    intro hq
    obtain ⟨j, hjmem, hjb, hjdq⟩ := inv.queuedHeld _ hq
    have : j = info := paramBuffer_inj inv hjmem hmem hjb
    rw [this] at hjdq
    rw [hdq] at hjdq
    exact Bool.true_eq_false.mp hjdq
  rw [hres]
  refine ⟨?_, ?_, ?_, ?_, ?_, ?_, ?_, ?_, ?_, ?_, ?_, ?_, ?_, ?_, ?_, ?_⟩
  · intro i hi
    exact inv.dequeuedFilled i (hsub i hi)
  · intro b hb i hi
    exact inv.queuedFilled b hb i (hsub i hi)
  · intro b hb
    obtain ⟨j, hjmem, hjb, hjdq⟩ := inv.queuedHeld b hb
    have hjne : j ≠ info := by
      intro heq
      rw [heq] at hjb
      rw [hjb] at hnotq
      exact hnotq hb
    refine ⟨j, ?_, hjb, hjdq⟩
    rw [hl] at hjmem
    rcases List.mem_append.mp hjmem with h | h
    · exact List.mem_append.mpr (Or.inl h)
    · rcases List.mem_cons.mp h with h | h
      · exact absurd h hjne
      · exact List.mem_append.mpr (Or.inr h)
  · have hperm : (s.paramBuffers ++ s.frameInfo.map (fun i => i.paramBuffer)).Perm
        ((s.paramBuffers ++ [info.paramBuffer]) ++ (l1 ++ l2).map (fun i => i.paramBuffer)) := by
      rw [hl, List.map_append, List.map_cons, List.map_append, List.append_assoc,
        List.singleton_append]
      exact List.Perm.append_left s.paramBuffers List.perm_middle
    exact hperm.nodup inv.paramNodup
  · have hsubl : List.Sublist ((l1 ++ l2).map (fun i => i.frame))
        (s.frameInfo.map (fun i => i.frame)) := by
      rw [hl]
      exact List.Sublist.map _ ((List.sublist_cons_self info l2).append_left l1)
    exact inv.framesNodup.sublist hsubl
  · exact inv.queuedNodup
  · intro f' hf' i hi hifr
    exact inv.pendingFresh f' hf' i (hsub i hi) hifr
  · intro i hi
    exact inv.framesLt i (hsub i hi)
  · exact inv.pendingLt
  · exact inv.pendingNodup
  · intro b hb
    rcases List.mem_append.mp hb with h | h
    · exact inv.freeParamShape b h
    · rw [List.mem_singleton.mp h]
      exact inv.heldParamShape info hmem
  · intro i hi
    exact inv.heldParamShape i (hsub i hi)
  · intro b hb
    rcases List.mem_append.mp hb with h | h
    · exact inv.freeStatShape b h
    · rw [List.mem_singleton.mp h]
      exact inv.heldStatShape info hmem
  · intro i hi
    exact inv.heldStatShape i (hsub i hi)
  · intro i hi
    exact inv.heldVideoShape i (hsub i hi)
  · exact inv.queuedShape

theorem tryCompleteRequest_inv {s : SysState} (inv : Inv s) (r : Nat) (p : Bool) :
    Inv (tryCompleteRequest s r p).1 := by
  unfold tryCompleteRequest
  cases hf : findRequest s.frameInfo r with
  | none => exact inv
  | some info =>
    obtain ⟨hmem, -⟩ := findRequest_mem hf
    cases p with
    | true => exact inv
    | false =>
      cases hmd : info.metadataProcessed with
      | false => simpa [hmd] using inv
      | true =>
        cases hdq : info.paramDequeued with
        | false => simpa [hmd, hdq] using inv
        | true =>
          have hsome := findFrame_isSome_of_mem hmem
          cases hff : findFrame s.frameInfo info.frame with
          | none =>
            rw [hff] at hsome
            simp at hsome
          | some j =>
            obtain ⟨hjmem, hjfr⟩ := findFrame_mem hff
            have hji : j = info := frame_inj inv.framesNodup hjmem hmem hjfr
            simpa [hmd, hdq] using framesDestroy_inv inv hff (hji ▸ hdq)

theorem not_param_and_stat {b : BufId} (h1 : b.isParam = true)
    (h2 : b.isStat = true) : False := by
  cases b <;> simp [BufId.isParam, BufId.isStat] at h1 h2

theorem not_param_and_video {b : BufId} (h1 : b.isParam = true)
    (h2 : b.isVideo = true) : False := by
  cases b <;> simp [BufId.isParam, BufId.isVideo] at h1 h2

/-- A parameter buffer in kernel custody that findBuffer resolves resolves to
the entry holding it in the paramBuffer slot: the statBuffer and videoBuffer
slots can never alias a parameter-pool object. -/
theorem findBuffer_param_resolve {s : SysState} (inv : Inv s) {b : BufId}
    (hq : b ∈ s.paramQueued) {info : RkISP1FrameInfo}
    (hfind : findBuffer s.frameInfo b = some info) :
    info ∈ s.frameInfo ∧ info.paramBuffer = b := by
  have hmem := List.mem_of_find?_eq_some hfind
  have hpred := List.find?_some hfind
  refine ⟨hmem, ?_⟩
  have hbp : b.isParam = true := inv.queuedShape b hq
  have hpred2 : (info.paramBuffer = b ∨ info.statBuffer = b) ∨ info.videoBuffer = b := by
    simpa using hpred
  rcases hpred2 with (h | h) | h
  · exact h
  · exact absurd (h ▸ inv.heldStatShape info hmem)
      (fun h2 => not_param_and_stat hbp h2)
  · exact absurd (h ▸ inv.heldVideoShape info hmem)
      (fun h2 => not_param_and_video hbp h2)

/-- An entry whose parameter buffer is in kernel custody has not yet seen the
buffer come back. -/
theorem queued_holder_not_dequeued {s : SysState} (inv : Inv s)
    {info : RkISP1FrameInfo} (hmem : info ∈ s.frameInfo)
    (hq : info.paramBuffer ∈ s.paramQueued) : info.paramDequeued = false := by
  obtain ⟨j, hjmem, hjb, hjdq⟩ := inv.queuedHeld _ hq
  have : j = info := paramBuffer_inj inv hjmem hmem hjb
  exact this ▸ hjdq

theorem inv_statQueued {s : SysState} (inv : Inv s) (q : List BufId) :
    Inv { s with statQueued := q } :=
  ⟨inv.dequeuedFilled, inv.queuedFilled, inv.queuedHeld, inv.paramNodup,
   inv.framesNodup, inv.queuedNodup, inv.pendingFresh, inv.framesLt,
   inv.pendingLt, inv.pendingNodup, inv.freeParamShape, inv.heldParamShape,
   inv.freeStatShape, inv.heldStatShape, inv.heldVideoShape, inv.queuedShape⟩

theorem inv_frame_mono {s : SysState} (inv : Inv s) {n : Nat}
    (h : s.frame ≤ n) : Inv { s with frame := n } :=
  ⟨inv.dequeuedFilled, inv.queuedFilled, inv.queuedHeld, inv.paramNodup,
   inv.framesNodup, inv.queuedNodup, inv.pendingFresh,
   fun i hi => Nat.lt_of_lt_of_le (inv.framesLt i hi) h,
   fun f hf => Nat.lt_of_lt_of_le (inv.pendingLt f hf) h,
   inv.pendingNodup, inv.freeParamShape, inv.heldParamShape,
   inv.freeStatShape, inv.heldStatShape, inv.heldVideoShape, inv.queuedShape⟩

/-- Invariant preservation by a write through the pointer returned by a
frame-table lookup (the update u touches only the three boolean flags),
possibly combined with a shrinking of the kernel custody list. -/
theorem updFrame_inv {s : SysState} (inv : Inv s) {info : RkISP1FrameInfo}
    (hmem : info ∈ s.frameInfo)
    (u : RkISP1FrameInfo → RkISP1FrameInfo) (q' : List BufId)
    (hufr : (u info).frame = info.frame)
    (hupb : (u info).paramBuffer = info.paramBuffer)
    (husb : (u info).statBuffer = info.statBuffer)
    (huvb : (u info).videoBuffer = info.videoBuffer)
    (hudf : (u info).paramDequeued = true → (u info).paramFilled = true)
    (hupf : info.paramFilled = true → (u info).paramFilled = true)
    (hsubq : ∀ b ∈ q', b ∈ s.paramQueued)
    (hqnodup : q'.Nodup)
    (hqheld : ∀ b ∈ q', b = info.paramBuffer → (u info).paramDequeued = false)
    (hupd : ∀ f ∈ s.pendingActions, info.frame = f → (u info).paramDequeued = false) :
    Inv { s with frameInfo := updFrame s.frameInfo info.frame u,
                 paramQueued := q' } := by
  obtain ⟨l1, l2, hl, h1, h2⟩ := nodup_frame_decomp inv.framesNodup hmem
  have hupd2 : updFrame s.frameInfo info.frame u = l1 ++ u info :: l2 := by
    rw [hl]
    exact updFrame_decomp h1 h2 u
  have hsub : ∀ i, i ∈ l1 ∨ i ∈ l2 → i ∈ s.frameInfo := by
    intro i hi
    rw [hl]
    rcases hi with h | h
    · exact List.mem_append.mpr (Or.inl h)
    · exact List.mem_append.mpr (Or.inr (List.mem_cons_of_mem _ h))
  have hcase : ∀ i, i ∈ l1 ++ u info :: l2 →
      (i ∈ s.frameInfo ∧ (i ∈ l1 ∨ i ∈ l2)) ∨ i = u info := by
    intro i hi
    rcases List.mem_append.mp hi with h | h
    · exact Or.inl ⟨hsub i (Or.inl h), Or.inl h⟩
    · rcases List.mem_cons.mp h with h | h
      · exact Or.inr h
      · exact Or.inl ⟨hsub i (Or.inr h), Or.inr h⟩
  rw [hupd2]
  refine ⟨?_, ?_, ?_, ?_, ?_, ?_, ?_, ?_, ?_, ?_, ?_, ?_, ?_, ?_, ?_, ?_⟩
  · intro i hi hdq
    rcases hcase i hi with ⟨hiF, -⟩ | rfl
    · exact inv.dequeuedFilled i hiF hdq
    · exact hudf hdq
  · intro b hb i hi hib
    rcases hcase i hi with ⟨hiF, -⟩ | rfl
    · exact inv.queuedFilled b (hsubq b hb) i hiF hib
    · rw [hupb] at hib
      exact hupf (inv.queuedFilled b (hsubq b hb) info hmem hib)
  · intro b hb
    obtain ⟨j, hjmem, hjb, hjdq⟩ := inv.queuedHeld b (hsubq b hb)
    by_cases hji : j = info
    · refine ⟨u info, ?_, by rw [hupb, ← hji]; exact hjb, ?_⟩
      · exact List.mem_append.mpr (Or.inr (List.mem_cons_self _ _))
      · exact hqheld b hb (by rw [← hjb, hji])
    · have hjmem2 : j ∈ l1 ++ u info :: l2 := by
        rw [hl] at hjmem
        rcases List.mem_append.mp hjmem with h | h
        · exact List.mem_append.mpr (Or.inl h)
        · rcases List.mem_cons.mp h with h | h
          · exact absurd h hji
          · exact List.mem_append.mpr (Or.inr (List.mem_cons_of_mem _ h))
      exact ⟨j, hjmem2, hjb, hjdq⟩
  · have hmap : (l1 ++ u info :: l2).map (fun i => i.paramBuffer) =
        s.frameInfo.map (fun i => i.paramBuffer) := by
      rw [hl, List.map_append, List.map_append, List.map_cons, List.map_cons, hupb]
    rw [hmap]
    exact inv.paramNodup
  · have hmap : (l1 ++ u info :: l2).map (fun i => i.frame) =
        s.frameInfo.map (fun i => i.frame) := by
      rw [hl, List.map_append, List.map_append, List.map_cons, List.map_cons, hufr]
    rw [hmap]
    exact inv.framesNodup
  · exact hqnodup
  · intro f hf i hi hifr
    rcases hcase i hi with ⟨hiF, -⟩ | rfl
    · obtain ⟨hnq, hdq⟩ := inv.pendingFresh f hf i hiF hifr
      exact ⟨fun hin => hnq (hsubq _ hin), hdq⟩
    · rw [hufr] at hifr
      obtain ⟨hnq, -⟩ := inv.pendingFresh f hf info hmem hifr
      refine ⟨?_, hupd f hf hifr⟩
      rw [hupb]
      exact fun hin => hnq (hsubq _ hin)
  · intro i hi
    rcases hcase i hi with ⟨hiF, -⟩ | rfl
    · exact inv.framesLt i hiF
    · rw [hufr]
      exact inv.framesLt info hmem
  · exact inv.pendingLt
  · exact inv.pendingNodup
  · exact inv.freeParamShape
  · intro i hi
    rcases hcase i hi with ⟨hiF, -⟩ | rfl
    · exact inv.heldParamShape i hiF
    · rw [hupb]
      exact inv.heldParamShape info hmem
  · exact inv.freeStatShape
  · intro i hi
    rcases hcase i hi with ⟨hiF, -⟩ | rfl
    · exact inv.heldStatShape i hiF
    · rw [husb]
      exact inv.heldStatShape info hmem
  · intro i hi
    rcases hcase i hi with ⟨hiF, -⟩ | rfl
    · exact inv.heldVideoShape i hiF
    · rw [huvb]
      exact inv.heldVideoShape info hmem
  · intro b hb
    exact inv.queuedShape b (hsubq b hb)

theorem inv_pending_erase {s : SysState} (inv : Inv s) (f : Nat) :
    Inv { s with pendingActions := s.pendingActions.erase f } :=
  ⟨inv.dequeuedFilled, inv.queuedFilled, inv.queuedHeld, inv.paramNodup,
   inv.framesNodup, inv.queuedNodup,
   fun f2 hf2 => inv.pendingFresh f2 (List.mem_of_mem_erase hf2),
   inv.framesLt, fun f2 hf2 => inv.pendingLt f2 (List.mem_of_mem_erase hf2),
   inv.pendingNodup.erase f,
   inv.freeParamShape, inv.heldParamShape, inv.freeStatShape,
   inv.heldStatShape, inv.heldVideoShape, inv.queuedShape⟩

theorem onParamFilled_inv {s : SysState} (inv : Inv s) (f : Nat) :
    Inv (onParamFilled s f) := by
  unfold onParamFilled
  cases hff : findFrame s.frameInfo f with
  | none => exact inv
  | some info =>
    obtain ⟨hmem, hfr⟩ := findFrame_mem hff
    subst hfr
    exact updFrame_inv inv hmem (fun i => { i with paramFilled := true })
      s.paramQueued rfl rfl rfl rfl
      (fun _ => rfl) (fun _ => rfl) (fun b hb => hb) inv.queuedNodup
      (fun b hb hbe => show info.paramDequeued = false from
        queued_holder_not_dequeued inv hmem (by rw [← hbe]; exact hb))
      (fun f2 hf2 hifr => show info.paramDequeued = false from
        (inv.pendingFresh f2 hf2 info hmem hifr).2)

theorem onMetadata_inv {s : SysState} (inv : Inv s) (f : Nat) (p : Bool) :
    Inv (onMetadata s f p).1 := by
  unfold onMetadata
  cases hff : findFrame s.frameInfo f with
  | none => exact inv
  | some info =>
    obtain ⟨hmem, hfr⟩ := findFrame_mem hff
    subst hfr
    have hinv1 := updFrame_inv inv hmem
      (fun i => { i with metadataProcessed := true }) s.paramQueued
      rfl rfl rfl rfl
      (fun hdq => show info.paramFilled = true from
        inv.dequeuedFilled info hmem hdq)
      (fun h => h)
      (fun b hb => hb) inv.queuedNodup
      (fun b hb hbe => show info.paramDequeued = false from
        queued_holder_not_dequeued inv hmem (by rw [← hbe]; exact hb))
      (fun f2 hf2 hifr => show info.paramDequeued = false from
        (inv.pendingFresh f2 hf2 info hmem hifr).2)
    exact tryCompleteRequest_inv hinv1 info.request p

theorem paramReadyGo_inv {s : SysState} (inv : Inv s) {b : BufId}
    (hq : b ∈ s.paramQueued) {info : RkISP1FrameInfo}
    (hfind : findBuffer s.frameInfo b = some info) (p : Bool) :
    Inv (paramReadyGo s b info p).1 := by
  obtain ⟨hmem, hpb⟩ := findBuffer_param_resolve inv hq hfind
  have hpf : info.paramFilled = true := inv.queuedFilled b hq info hmem hpb
  have hinv1 := updFrame_inv inv hmem
    (fun i => { i with paramDequeued := true }) (s.paramQueued.erase b)
    rfl rfl rfl rfl
    (fun _ => show info.paramFilled = true from hpf)
    (fun h => h)
    (fun b2 hb2 => List.mem_of_mem_erase hb2)
    (inv.queuedNodup.erase b)
    (fun b2 hb2 hbe => by
      exfalso
      have h2 := (inv.queuedNodup.mem_erase_iff).mp hb2
      exact h2.1 (by rw [hbe, hpb]))
    (fun f2 hf2 hifr => by
      exfalso
      exact (inv.pendingFresh f2 hf2 info hmem hifr).1 (by rw [hpb]; exact hq))
  exact tryCompleteRequest_inv hinv1 info.request p

theorem statReadyF_inv {s : SysState} (inv : Inv s) (b : BufId) :
    Inv (statReadyF s b).1 := by
  unfold statReadyF
  cases findBuffer s.frameInfo b with
  | none => exact inv_statQueued inv _
  | some info => exact inv_statQueued inv _

theorem bufferReadyF_inv {s : SysState} (inv : Inv s) (r seq : Nat) (p : Bool)
    (hseq : seq + 1 < 4294967296) : Inv (bufferReadyF s r seq p).1 := by
  show Inv (tryCompleteRequest
    (if s.frame ≤ seq then { s with frame := (seq + 1) % 4294967296 } else s)
    r p).1
  by_cases h : s.frame ≤ seq
  · rw [if_pos h, Nat.mod_eq_of_lt hseq]
    exact tryCompleteRequest_inv (inv_frame_mono inv (by omega)) r p
  · rw [if_neg h]
    exact tryCompleteRequest_inv inv r p

theorem framesCreate_inversion {s : SysState} {f r : Nat} {vb : Option BufId}
    {info : RkISP1FrameInfo} {s1 : SysState}
    (h : framesCreate s f r vb = some (info, s1)) :
    ∃ p0 restP s0 restS v,
      s.paramBuffers = p0 :: restP ∧ s.statBuffers = s0 :: restS ∧
      vb = some v ∧
      info = { frame := f, request := r, paramBuffer := p0, statBuffer := s0,
               videoBuffer := v, paramFilled := false, paramDequeued := false,
               metadataProcessed := false } ∧
      s1 = { s with paramBuffers := restP, statBuffers := restS,
                    frameInfo := mapInsert s.frameInfo info } := by
  unfold framesCreate at h
  cases hP : s.paramBuffers with
  | nil => rw [hP] at h; exact absurd h (by simp)
  | cons p0 restP =>
    rw [hP] at h
    cases hS : s.statBuffers with
    | nil => rw [hS] at h; exact absurd h (by simp)
    | cons s0 restS =>
      rw [hS] at h
      cases hV : vb with
      | none => rw [hV] at h; exact absurd h (by simp)
      | some v =>
        rw [hV] at h
        simp only [Option.some.injEq, Prod.mk.injEq] at h
        obtain ⟨hinfo, hs1⟩ := h
        refine ⟨p0, restP, s0, restS, v, rfl, rfl, rfl, hinfo.symm, ?_⟩
        rw [← hs1, hinfo]

theorem runQueueBuffers_inv {s : SysState} (inv : Inv s) {f : Nat}
    {info : RkISP1FrameInfo} (hp : f ∈ s.pendingActions)
    (hfind : findFrame s.frameInfo f = some info) :
    Inv (runQueueBuffers s f info).1 := by
  obtain ⟨hmem, hfr⟩ := findFrame_mem hfind
  obtain ⟨hnq, hdq⟩ := inv.pendingFresh f hp info hmem hfr
  cases hpf : info.paramFilled with
  | false =>
    show Inv { s with
                 pendingActions := s.pendingActions.erase f,
                 paramQueued := s.paramQueued ++ (if info.paramFilled then ([info.paramBuffer], [Output.devQueueParam info.paramBuffer]) else ([], [])).1,
                 statQueued := s.statQueued ++ [info.statBuffer] }
    rw [hpf]
    simp only [Bool.false_eq_true, if_false, List.append_nil]
    exact inv_statQueued (inv_pending_erase inv f) _
  | true =>
    show Inv { s with
                 pendingActions := s.pendingActions.erase f,
                 paramQueued := s.paramQueued ++ (if info.paramFilled then ([info.paramBuffer], [Output.devQueueParam info.paramBuffer]) else ([], [])).1,
                 statQueued := s.statQueued ++ [info.statBuffer] }
    rw [hpf]
    simp only [if_true]
    refine ⟨?_, ?_, ?_, ?_, ?_, ?_, ?_, ?_, ?_, ?_, ?_, ?_, ?_, ?_, ?_, ?_⟩
    · exact inv.dequeuedFilled
    · intro b hb i hi hib
      rcases List.mem_append.mp hb with h | h
      · exact inv.queuedFilled b h i hi hib
      · rw [List.mem_singleton.mp h] at hib
        have : i = info := paramBuffer_inj inv hi hmem hib
        rw [this, hpf]
    · intro b hb
      rcases List.mem_append.mp hb with h | h
      · obtain ⟨j, hjm, hjb, hjdq⟩ := inv.queuedHeld b h
        exact ⟨j, hjm, hjb, hjdq⟩
      · exact ⟨info, hmem, (List.mem_singleton.mp h).symm, hdq⟩
    · exact inv.paramNodup
    · exact inv.framesNodup
    · rw [List.nodup_append]
      refine ⟨inv.queuedNodup, List.nodup_singleton _, ?_⟩
      intro a ha hb
      rw [List.mem_singleton.mp hb] at ha
      exact hnq ha
    · intro f2 hf2 i hi hifr
      have h2 := (inv.pendingNodup.mem_erase_iff).mp hf2
      obtain ⟨hpb2, hdq2⟩ := inv.pendingFresh f2 h2.2 i hi hifr
      refine ⟨?_, hdq2⟩
      intro hin
      rcases List.mem_append.mp hin with h | h
      · exact hpb2 h
      · have hieq : i = info :=
          paramBuffer_inj inv hi hmem (List.mem_singleton.mp h)
        rw [hieq] at hifr
        rw [hfr] at hifr
        exact h2.1 hifr.symm
    · exact inv.framesLt
    · intro f2 hf2
      exact inv.pendingLt f2 (List.mem_of_mem_erase hf2)
    · exact inv.pendingNodup.erase f
    · exact inv.freeParamShape
    · exact inv.heldParamShape
    · exact inv.freeStatShape
    · exact inv.heldStatShape
    · exact inv.heldVideoShape
    · intro b hb
      rcases List.mem_append.mp hb with h | h
      · exact inv.queuedShape b h
      · rw [List.mem_singleton.mp h]
        exact inv.heldParamShape info hmem

theorem queueRequestF_inv {s : SysState} (inv : Inv s) (r : Nat)
    {vb : Option BufId} (hvb : ∀ b, vb = some b → b.isVideo = true) :
    Inv (queueRequestF s r vb).2.1 := by
  unfold queueRequestF
  cases hc : framesCreate s s.frame r vb with
  | none => exact inv
  | some pair =>
    obtain ⟨info, s1⟩ := pair
    obtain ⟨p0, restP, s0, restS, v, hP, hS, hV, hinfo, hs1⟩ :=
      framesCreate_inversion hc
    have hfresh : ∀ i ∈ s.frameInfo, i.frame ≠ info.frame := by
      intro i hi
      rw [hinfo]
      exact Nat.ne_of_lt (inv.framesLt i hi)
    have hins : mapInsert s.frameInfo info = s.frameInfo ++ [info] :=
      mapInsert_fresh hfresh
    have hp0 : p0 ∈ s.paramBuffers := by rw [hP]; exact List.mem_cons_self _ _
    have hs0 : s0 ∈ s.statBuffers := by rw [hS]; exact List.mem_cons_self _ _
    have hp0nq : p0 ∉ s.paramQueued := by
      intro hin
      exact queued_not_free inv p0 hin hp0
    have hifr : info.frame = s.frame := by rw [hinfo]
    have hipb : info.paramBuffer = p0 := by rw [hinfo]
    have hisb : info.statBuffer = s0 := by rw [hinfo]
    have hivb : info.videoBuffer = v := by rw [hinfo]
    have hipf : info.paramFilled = false := by rw [hinfo]
    have hidq : info.paramDequeued = false := by rw [hinfo]
    have hmemcase : ∀ i : RkISP1FrameInfo, i ∈ s.frameInfo ++ [info] →
        i ∈ s.frameInfo ∨ i = info := by
      intro i hi
      rcases List.mem_append.mp hi with h | h
      · exact Or.inl h
      · exact Or.inr (List.mem_singleton.mp h)
    subst hs1
    show Inv { s with
                 paramBuffers := restP,
                 statBuffers := restS,
                 frameInfo := mapInsert s.frameInfo info,
                 pendingActions := s.pendingActions ++ [s.frame],
                 frame := s.frame + 1 }
    rw [hins]
    refine ⟨?_, ?_, ?_, ?_, ?_, ?_, ?_, ?_, ?_, ?_, ?_, ?_, ?_, ?_, ?_, ?_⟩
    · intro i hi hdq
      rcases hmemcase i hi with h | rfl
      · exact inv.dequeuedFilled i h hdq
      · rw [hidq] at hdq
        exact absurd hdq (by simp)
    · intro b hb i hi hib
      rcases hmemcase i hi with h | rfl
      · exact inv.queuedFilled b hb i h hib
      · exfalso
        rw [hipb] at hib
        rw [hib] at hp0nq
        exact hp0nq hb
    · intro b hb
      obtain ⟨j, hjm, hjb, hjdq⟩ := inv.queuedHeld b hb
      exact ⟨j, List.mem_append.mpr (Or.inl hjm), hjb, hjdq⟩
    · rw [List.map_append]
      have hmap1 : ([info] : List RkISP1FrameInfo).map (fun i => i.paramBuffer)
          = [p0] := by rw [List.map_singleton, hipb]
      rw [hmap1, ← List.append_assoc]
      have hpre : (p0 :: (restP ++ s.frameInfo.map (fun i => i.paramBuffer))).Nodup := by
        have h0 := inv.paramNodup
        rw [hP] at h0
        exact h0
      exact (List.perm_append_singleton p0 _).symm.nodup hpre
    · rw [List.map_append]
      have hmap1 : ([info] : List RkISP1FrameInfo).map (fun i => i.frame)
          = [s.frame] := by rw [List.map_singleton, hifr]
      rw [hmap1, List.nodup_append]
      refine ⟨inv.framesNodup, List.nodup_singleton _, ?_⟩
      intro a ha hb2
      rw [List.mem_singleton.mp hb2] at ha
      obtain ⟨i, hi, hia⟩ := List.mem_map.mp ha
      exact Nat.ne_of_lt (inv.framesLt i hi) hia
    · exact inv.queuedNodup
    · intro f2 hf2 i hi hifr2
      rcases List.mem_append.mp hf2 with hf2a | hf2a
      · rcases hmemcase i hi with h | rfl
        · exact inv.pendingFresh f2 hf2a i h hifr2
        · exfalso
          rw [hifr] at hifr2
          have h2 := inv.pendingLt f2 hf2a
          omega
      · have hf2e : f2 = s.frame := List.mem_singleton.mp hf2a
        subst hf2e
        rcases hmemcase i hi with h | rfl
        · exfalso
          have h2 := inv.framesLt i h
          omega
        · rw [hipb, hidq]
          exact ⟨hp0nq, rfl⟩
    · intro i hi
      rcases hmemcase i hi with h | rfl
      · exact Nat.lt_succ_of_lt (inv.framesLt i h)
      · rw [hifr]
        exact Nat.lt_succ_self _
    · intro f2 hf2
      rcases List.mem_append.mp hf2 with h | h
      · exact Nat.lt_succ_of_lt (inv.pendingLt f2 h)
      · rw [List.mem_singleton.mp h]
        exact Nat.lt_succ_self _
    · rw [List.nodup_append]
      refine ⟨inv.pendingNodup, List.nodup_singleton _, ?_⟩
      intro a ha hb2
      rw [List.mem_singleton.mp hb2] at ha
      exact Nat.lt_irrefl _ (inv.pendingLt _ ha)
    · intro b hb
      refine inv.freeParamShape b ?_
      rw [hP]
      exact List.mem_cons_of_mem _ hb
    · intro i hi
      rcases hmemcase i hi with h | rfl
      · exact inv.heldParamShape i h
      · rw [hipb]
        exact inv.freeParamShape p0 hp0
    · intro b hb
      refine inv.freeStatShape b ?_
      rw [hS]
      exact List.mem_cons_of_mem _ hb
    · intro i hi
      rcases hmemcase i hi with h | rfl
      · exact inv.heldStatShape i h
      · rw [hisb]
        exact inv.freeStatShape s0 hs0
    · intro i hi
      rcases hmemcase i hi with h | rfl
      · exact inv.heldVideoShape i h
      · rw [hivb]
        exact hvb v hV
    · exact inv.queuedShape

theorem step_inv {s : SysState} {e : Event} {out : List Output} {s' : SysState}
    (inv : Inv s) (hst : Step s e out s') : Inv s' := by
  cases hst with
  | queueRequest r vb hvb => exact queueRequestF_inv inv r hvb
  | bufferReady r seq p hseq => exact bufferReadyF_inv inv r seq p hseq
  | paramReady b p info hq hfind => exact paramReadyGo_inv inv hq hfind p
  | statReady b hq => exact statReadyF_inv inv b
  | paramFilled f => exact onParamFilled_inv inv f
  | metadata f p => exact onMetadata_inv inv f p
  | queueBuffers f info hp hfind => exact runQueueBuffers_inv inv hp hfind

theorem reach_inv {s : SysState} (h : Reach s) : Inv s := by
  induction h with
  | init nP nS => exact inv_init nP nS
  | step hr hst ih => exact step_inv ih hst

/-! ## C2 -/

/-- C2: in every reachable state, paramDequeued implies paramFilled (the
parameter buffer only comes back from the kernel if the QueueBuffers action
enqueued it, which requires paramFilled), and hence a completion attempt for
a Request with a live FrameInfo succeeds exactly when all three flags
(paramFilled, paramDequeued, metadataProcessed) are true and the Request
reports no pending output buffers; in particular no Request is completed
while paramFilled is still false. -/
theorem completion_requires_all_flags {s : SysState} (hreach : Reach s) :
    (∀ i ∈ s.frameInfo, i.paramDequeued = true → i.paramFilled = true) ∧
    (∀ r p info, findRequest s.frameInfo r = some info →
      ((tryCompleteRequest s r p).2 ≠ [] ↔
        (p = false ∧ info.paramFilled = true ∧ info.paramDequeued = true ∧
         info.metadataProcessed = true))) := by
  have inv := reach_inv hreach
  refine ⟨inv.dequeuedFilled, ?_⟩
  intro r p info hfind
  obtain ⟨hmem, -⟩ := findRequest_mem hfind
  constructor
  · intro hne
    have h1 : p = false ∧ info.metadataProcessed = true ∧
        info.paramDequeued = true := by
      by_contra hcon
      have : tryCompleteRequest s r p = (s, []) := by
        unfold tryCompleteRequest
        rw [hfind]
        cases p with
        | true => rfl
        | false =>
          cases hmd : info.metadataProcessed with
          | false => simp [hmd]
          | true =>
            cases hdq : info.paramDequeued with
            | false => simp [hmd, hdq]
            | true => exact absurd ⟨rfl, hmd, hdq⟩ hcon
      rw [this] at hne
      exact hne rfl
    exact ⟨h1.1, inv.dequeuedFilled info hmem h1.2.2, h1.2.2, h1.2.1⟩
  · rintro ⟨hp, -, hdq, hmd⟩
    subst hp
    unfold tryCompleteRequest
    rw [hfind]
    simp [hmd, hdq]

/-- C2 witness: the reachable state after one queueRequest on a fresh
pipeline, evaluated at its live FrameInfo. -/
def c2State : SysState :=
  (queueRequestF (initState 1 1) 5 (some (BufId.video 0))).2.1

def c2Info : RkISP1FrameInfo :=
  { frame := 0, request := 5, paramBuffer := BufId.param 0,
    statBuffer := BufId.stat 0, videoBuffer := BufId.video 0,
    paramFilled := false, paramDequeued := false, metadataProcessed := false }

theorem completion_requires_all_flags_witness :
    (tryCompleteRequest c2State 5 false).2 ≠ [] ↔
      (false = false ∧ c2Info.paramFilled = true ∧ c2Info.paramDequeued = true ∧
       c2Info.metadataProcessed = true) := by
  have hreach : Reach c2State :=
    Reach.step (Reach.init 1 1)
      (Step.queueRequest (initState 1 1) 5 (some (BufId.video 0))
        (fun b hb => by cases hb; rfl))
  exact (completion_requires_all_flags hreach).2 5 false c2Info (by decide)

/-! ## Counting completions along a run -/

/-- Number of live frame table entries serving request r. -/
def liveR (s : SysState) (r : Nat) : Nat :=
  s.frameInfo.countP (fun i => i.request == r)

/-- Number of completeRequest emissions for r in an output trace. -/
def countComplete (r : Nat) (outs : List Output) : Nat :=
  outs.countP (fun o => o == Output.completeRequest r)

/-- Number of queueRequest dispatches for r in an event list. -/
def countQueueEv (r : Nat) (evs : List Event) : Nat :=
  evs.countP (fun e => match e with
    | Event.queueRequest r2 _ => r2 == r
    | _ => false)

theorem countComplete_append (r : Nat) (l1 l2 : List Output) :
    countComplete r (l1 ++ l2) = countComplete r l1 + countComplete r l2 :=
  List.countP_append _ _ _

theorem countQueueEv_cons (r : Nat) (e : Event) (evs : List Event) :
    countQueueEv r (e :: evs) = countQueueEv r [e] + countQueueEv r evs := by
  unfold countQueueEv
  rw [List.countP_cons, List.countP_cons, List.countP_nil]
  omega

theorem two_le_countP {α : Type} (p : α → Bool) {l : List α} {a b : α}
    (ha : a ∈ l) (hb : b ∈ l) (hab : a ≠ b) (hpa : p a = true)
    (hpb : p b = true) : 2 ≤ l.countP p := by
  obtain ⟨l1, l2, rfl⟩ := List.append_of_mem ha
  rw [List.countP_append, List.countP_cons, hpa]
  have hbmem : b ∈ l1 ∨ b ∈ l2 := by
    rcases List.mem_append.mp hb with h | h
    · exact Or.inl h
    · rcases List.mem_cons.mp h with h | h
      · exact absurd h.symm hab
      · exact Or.inr h
  rcases hbmem with h | h
  · have h2 : 0 < l1.countP p := List.countP_pos_iff.mpr ⟨b, h, hpb⟩
    simp only [if_pos trivial]
    omega
  · have h2 : 0 < l2.countP p := List.countP_pos_iff.mpr ⟨b, h, hpb⟩
    simp only [if_pos trivial]
    omega

theorem tryComplete_count (s : SysState) (r2 : Nat) (p : Bool)
    (hnd : (s.frameInfo.map (fun i => i.frame)).Nodup) (r : Nat) :
    countComplete r (tryCompleteRequest s r2 p).2 +
      liveR (tryCompleteRequest s r2 p).1 r ≤ liveR s r := by
  unfold tryCompleteRequest
  cases hf : findRequest s.frameInfo r2 with
  | none => simp [countComplete]
  | some info =>
    obtain ⟨hmem, hrq⟩ := findRequest_mem hf
    cases p with
    | true => simp [countComplete]
    | false =>
      cases hmd : info.metadataProcessed with
      | false => simp [hmd, countComplete]
      | true =>
        cases hdq : info.paramDequeued with
        | false => simp [hmd, hdq, countComplete]
        | true =>
          simp only [hmd, hdq, Bool.not_true, Bool.false_eq_true, if_false]
          obtain ⟨l1, l2, hl, h1, h2⟩ := nodup_frame_decomp hnd hmem
          have hdes : (framesDestroy s info.frame).2.frameInfo = l1 ++ l2 := by
            unfold framesDestroy
            have hsome := findFrame_isSome_of_mem hmem
            cases hff : findFrame s.frameInfo info.frame with
            | none => rw [hff] at hsome; simp at hsome
            | some j =>
              show (s.frameInfo.filter (fun i => i.frame != info.frame)) = l1 ++ l2
              rw [hl]
              exact filter_frame_decomp h1 h2
          have hlive : liveR s r = (l1.countP (fun i => i.request == r)) +
              ((if (info.request == r) = true then 1 else 0) +
               (l2.countP (fun i => i.request == r))) := by
            unfold liveR
            rw [hl, List.countP_append, List.countP_cons]
            omega
          have hlive2 : liveR (framesDestroy s info.frame).2 r =
              (l1.countP (fun i => i.request == r)) +
              (l2.countP (fun i => i.request == r)) := by
            unfold liveR
            rw [hdes, List.countP_append]
          have hcnt : countComplete r [Output.completeRequest r2] =
              if (info.request == r) = true then 1 else 0 := by
            unfold countComplete
            rw [List.countP_cons, List.countP_nil]
            rw [hrq]
            by_cases hr : r2 = r
            · subst hr
              simp
            · have hb1 : ((r2 : Nat) == r) = false := by
                simpa using hr
              have hb2 : ((Output.completeRequest r2 == Output.completeRequest r))
                  = false := by
                simpa using hr
              rw [hb1, hb2]
              simp
          rw [hcnt, hlive2, hlive]
          omega

theorem countComplete_cons_ne (r : Nat) (o : Output) (l : List Output)
    (h : (o == Output.completeRequest r) = false) :
    countComplete r (o :: l) = countComplete r l := by
  unfold countComplete
  rw [List.countP_cons, h]
  simp

theorem tryComplete_count_mono (s1 s : SysState) (r2 : Nat) (p : Bool) (r : Nat)
    (hnd : (s1.frameInfo.map (fun i => i.frame)).Nodup)
    (hlr : liveR s1 r = liveR s r) :
    countComplete r (tryCompleteRequest s1 r2 p).2 +
      liveR (tryCompleteRequest s1 r2 p).1 r ≤ liveR s r := by
  have h1 := tryComplete_count s1 r2 p hnd r
  omega

theorem step_count {s : SysState} {e : Event} {out : List Output}
    {s' : SysState} (inv : Inv s) (hst : Step s e out s') (r : Nat) :
    countComplete r out + liveR s' r ≤ liveR s r + countQueueEv r [e] := by
  cases hst with
  | queueRequest r2 vb hvb =>
    unfold queueRequestF
    cases hc : framesCreate s s.frame r2 vb with
    | none => simp [countComplete, liveR]
    | some pair =>
      obtain ⟨info, s1⟩ := pair
      obtain ⟨p0, restP, s0, restS, v, hP, hS, hV, hinfo, hs1⟩ :=
        framesCreate_inversion hc
      have hfresh : ∀ i ∈ s.frameInfo, i.frame ≠ info.frame := by
        intro i hi
        rw [hinfo]
        exact Nat.ne_of_lt (inv.framesLt i hi)
      have hins : mapInsert s.frameInfo info = s.frameInfo ++ [info] :=
        mapInsert_fresh hfresh
      have hirq : info.request = r2 := by rw [hinfo]
      subst hs1
      have hlive : liveR { s with
            paramBuffers := restP,
            statBuffers := restS,
            frameInfo := mapInsert s.frameInfo info } r =
          liveR s r + (if (r2 == r) = true then 1 else 0) := by
        unfold liveR
        show (mapInsert s.frameInfo info).countP (fun i => i.request == r) = _
        rw [hins, List.countP_append, List.countP_cons, List.countP_nil, hirq]
        omega
      have hcc : countComplete r
          [Output.ipaQueueRequest s.frame (0x100 ||| info.paramBuffer.index)] = 0 := by
        unfold countComplete
        rw [List.countP_cons, List.countP_nil]
        simp
      have hqe : countQueueEv r [Event.queueRequest r2 vb] =
          if (r2 == r) = true then 1 else 0 := by
        unfold countQueueEv
        rw [List.countP_cons, List.countP_nil]
        exact Nat.zero_add _
      show countComplete r
          [Output.ipaQueueRequest s.frame (0x100 ||| info.paramBuffer.index)] +
        liveR { s with
                  paramBuffers := restP,
                  statBuffers := restS,
                  frameInfo := mapInsert s.frameInfo info } r ≤
        liveR s r + countQueueEv r [Event.queueRequest r2 vb]
      rw [hcc, hlive, hqe]
      omega
  | bufferReady r2 seq p hseq =>
    have hq0 : countQueueEv r [Event.bufferReady r2 seq p] = 0 := rfl
    rw [hq0, Nat.add_zero]
    have hbf : bufferReadyF s r2 seq p =
        ((tryCompleteRequest
            (if s.frame ≤ seq then { s with frame := (seq + 1) % 4294967296 }
             else s) r2 p).1,
         Output.completeBuffer r2 ::
           (tryCompleteRequest
             (if s.frame ≤ seq then { s with frame := (seq + 1) % 4294967296 }
              else s) r2 p).2) := rfl
    rw [hbf]
    have hne : ((Output.completeBuffer r2) == Output.completeRequest r) = false := by
      simp
    by_cases h : s.frame ≤ seq
    · rw [if_pos h, countComplete_cons_ne r _ _ hne]
      exact tryComplete_count_mono { s with frame := (seq + 1) % 4294967296 }
        s r2 p r inv.framesNodup rfl
    · rw [if_neg h, countComplete_cons_ne r _ _ hne]
      exact tryComplete_count_mono s s r2 p r inv.framesNodup rfl
  | paramReady b p info hq hfind =>
    have hq0 : countQueueEv r [Event.paramReady b p] = 0 := rfl
    rw [hq0, Nat.add_zero]
    have hnd2 : (({ s with
        frameInfo := updFrame s.frameInfo info.frame
          (fun i => { i with paramDequeued := true }),
        paramQueued := s.paramQueued.erase b } : SysState).frameInfo.map
          (fun i => i.frame)).Nodup := by
      show ((updFrame s.frameInfo info.frame
        (fun i => { i with paramDequeued := true })).map (fun i => i.frame)).Nodup
      rw [updFrame_map_field s.frameInfo info.frame
        (fun i => { i with paramDequeued := true }) (fun i => i.frame)
        (fun i => rfl)]
      exact inv.framesNodup
    have hlr : liveR { s with
        frameInfo := updFrame s.frameInfo info.frame
          (fun i => { i with paramDequeued := true }),
        paramQueued := s.paramQueued.erase b } r = liveR s r := by
      unfold liveR
      exact updFrame_countP s.frameInfo info.frame
        (fun i => { i with paramDequeued := true })
        (fun i => i.request == r) (fun i => rfl)
    exact tryComplete_count_mono _ s info.request p r hnd2 hlr
  | statReady b hq =>
    have hq0 : countQueueEv r [Event.statReady b] = 0 := rfl
    rw [hq0, Nat.add_zero]
    show countComplete r (statReadyF s b).2 + liveR (statReadyF s b).1 r ≤ _
    unfold statReadyF
    cases findBuffer s.frameInfo b with
    | none => simp [countComplete, liveR]
    | some info =>
      have hcc : countComplete r [Output.ipaSignalStat info.frame
          (0x200 ||| info.statBuffer.index)] = 0 := by
        unfold countComplete
        rw [List.countP_cons, List.countP_nil]
        simp
      show countComplete r [Output.ipaSignalStat info.frame
          (0x200 ||| info.statBuffer.index)] +
        liveR { s with statQueued := s.statQueued.erase b } r ≤ liveR s r
      rw [hcc]
      have hlr : liveR { s with statQueued := s.statQueued.erase b } r
          = liveR s r := rfl
      omega
  | paramFilled f =>
    have hq0 : countQueueEv r [Event.paramFilled f] = 0 := rfl
    rw [hq0, Nat.add_zero]
    have hlr : liveR (onParamFilled s f) r = liveR s r := by
      unfold onParamFilled
      cases findFrame s.frameInfo f with
      | none => rfl
      | some info =>
        unfold liveR
        exact updFrame_countP s.frameInfo f
          (fun i => { i with paramFilled := true })
          (fun i => i.request == r) (fun i => rfl)
    rw [hlr]
    simp [countComplete]
  | metadata f p =>
    have hq0 : countQueueEv r [Event.metadata f p] = 0 := rfl
    rw [hq0, Nat.add_zero]
    show countComplete r (onMetadata s f p).2 + liveR (onMetadata s f p).1 r ≤ _
    unfold onMetadata
    cases findFrame s.frameInfo f with
    | none => simp [countComplete, liveR]
    | some info =>
      have hnd2 : (({ s with
          frameInfo := updFrame s.frameInfo f
            (fun i => { i with metadataProcessed := true }) } : SysState).frameInfo.map
            (fun i => i.frame)).Nodup := by
        show ((updFrame s.frameInfo f
          (fun i => { i with metadataProcessed := true })).map (fun i => i.frame)).Nodup
        rw [updFrame_map_field s.frameInfo f
          (fun i => { i with metadataProcessed := true }) (fun i => i.frame)
          (fun i => rfl)]
        exact inv.framesNodup
      have hlr : liveR { s with
          frameInfo := updFrame s.frameInfo f
            (fun i => { i with metadataProcessed := true }) } r = liveR s r := by
        unfold liveR
        exact updFrame_countP s.frameInfo f
          (fun i => { i with metadataProcessed := true })
          (fun i => i.request == r) (fun i => rfl)
      exact tryComplete_count_mono _ s info.request p r hnd2 hlr
  | queueBuffers f info hp hfind =>
    have hq0 : countQueueEv r [Event.queueBuffers f] = 0 := rfl
    rw [hq0, Nat.add_zero]
    show countComplete r (runQueueBuffers s f info).2 +
        liveR (runQueueBuffers s f info).1 r ≤ _
    have hrq : runQueueBuffers s f info =
        ({ s with
             pendingActions := s.pendingActions.erase f,
             paramQueued := s.paramQueued ++ (if info.paramFilled then ([info.paramBuffer], [Output.devQueueParam info.paramBuffer]) else ([], [])).1,
             statQueued := s.statQueued ++ [info.statBuffer] },
         (if info.paramFilled then ([info.paramBuffer], [Output.devQueueParam info.paramBuffer]) else ([], [])).2
           ++ [Output.devQueueStat info.statBuffer,
               Output.devQueueVideo info.videoBuffer]) := rfl
    rw [hrq]
    cases hpf : info.paramFilled with
    | false =>
      simp only [Bool.false_eq_true, if_false, List.nil_append, List.append_nil]
      have hcc : countComplete r
          [Output.devQueueStat info.statBuffer,
           Output.devQueueVideo info.videoBuffer] = 0 := by
        unfold countComplete
        rw [List.countP_cons, List.countP_cons, List.countP_nil]
        simp
      rw [hcc]
      show 0 + liveR s r ≤ liveR s r
      omega
    | true =>
      simp only [if_true]
      have hcc : countComplete r ([Output.devQueueParam info.paramBuffer] ++
          [Output.devQueueStat info.statBuffer,
           Output.devQueueVideo info.videoBuffer]) = 0 := by
        unfold countComplete
        rw [List.countP_append, List.countP_cons, List.countP_cons,
          List.countP_cons, List.countP_nil]
        simp
      rw [hcc]
      show 0 + liveR s r ≤ liveR s r
      omega

theorem trace_count {s : SysState} {evs : List Event} {outs : List Output}
    {s' : SysState} (htr : Trace s evs outs s') :
    Reach s → ∀ r, countComplete r outs + liveR s' r ≤
      liveR s r + countQueueEv r evs := by
  induction htr with
  | nil s =>
    intro _ r
    simp [countComplete, countQueueEv]
  | cons hst htr2 ih =>
    intro hreach r
    have h1 := step_count (reach_inv hreach) hst r
    have h2 := ih (Reach.step hreach hst) r
    rw [countComplete_append, countQueueEv_cons]
    omega

/-! ## C3 -/

/-- C3: the external completeRequest callback runs at most once per Request
lifetime.  First conjunct: along any run from a fresh start in which a
Request is admitted at most once, at most one completeRequest is emitted for
it.  Second conjunct: a completion attempt for a Request with no FrameInfo
is a no-op that leaves the state untouched.  Third conjunct: a successful
completion destroys the FrameInfo, so the Request can no longer be found in
the table afterwards. -/
theorem completeRequest_at_most_once :
    (∀ (nP nS : Nat) (evs : List Event) (outs : List Output) (s : SysState)
        (r : Nat),
      Trace (initState nP nS) evs outs s →
      countQueueEv r evs ≤ 1 →
      countComplete r outs ≤ 1) ∧
    (∀ (s : SysState) (r : Nat) (p : Bool),
      findRequest s.frameInfo r = none → tryCompleteRequest s r p = (s, [])) ∧
    (∀ (s : SysState) (r : Nat) (p : Bool),
      s.frameInfo.countP (fun i => i.request == r) ≤ 1 →
      (tryCompleteRequest s r p).2 ≠ [] →
      findRequest (tryCompleteRequest s r p).1.frameInfo r = none) := by
  refine ⟨?_, ?_, ?_⟩
  · intro nP nS evs outs s r htr hq
    have h1 := trace_count htr (Reach.init nP nS) r
    have h0 : liveR (initState nP nS) r = 0 := rfl
    omega
  · intro s r p hnone
    unfold tryCompleteRequest
    rw [hnone]
  · intro s r p hle hne
    unfold tryCompleteRequest at hne ⊢
    cases hf : findRequest s.frameInfo r with
    | none => rw [hf] at hne; simp at hne
    | some info =>
      rw [hf] at hne
      obtain ⟨hmem, hrq⟩ := findRequest_mem hf
      cases p with
      | true => simp at hne
      | false =>
        cases hmd : info.metadataProcessed with
        | false => simp [hmd] at hne
        | true =>
          cases hdq : info.paramDequeued with
          | false => simp [hmd, hdq] at hne
          | true =>
            simp only [hmd, hdq, Bool.not_true, Bool.false_eq_true, if_false]
            have hsome := findFrame_isSome_of_mem hmem
            unfold framesDestroy
            cases hff : findFrame s.frameInfo info.frame with
            | none => rw [hff] at hsome; simp at hsome
            | some j =>
              show findRequest (s.frameInfo.filter
                (fun i => i.frame != info.frame)) r = none
              rw [findRequest, List.find?_eq_none]
              intro i hi
              obtain ⟨himem, hifr⟩ := List.mem_filter.mp hi
              intro hireq
              have hir : i.request = r := by simpa using hireq
              by_cases hii : i = info
              · rw [hii] at hifr
                simp at hifr
              · have h2 : 2 ≤ s.frameInfo.countP (fun i => i.request == r) :=
                  two_le_countP _ himem hmem hii
                    (by simpa using hir) (by simpa using hrq)
                omega

/-- C3 witness: a single-request run from a fresh pipeline. -/
theorem completeRequest_at_most_once_witness :
    countComplete 5
      ((queueRequestF (initState 1 1) 5 (some (BufId.video 0))).2.2 ++ []) ≤ 1 :=
  completeRequest_at_most_once.1 1 1 _ _ _ 5
    (Trace.cons
      (Step.queueRequest (initState 1 1) 5 (some (BufId.video 0))
        (fun b hb => by cases hb; rfl))
      (Trace.nil _))
    (by decide)

/-! ## Pool conservation -/

end RkISP1Spec
